import Mathlib

/-
Verification of the core logic of `googlemaps.py` (a Google Maps business
scraper): the scroll-stabilization loop of `search_and_scrape`, the
markup-to-record extraction of `parse_results`, and the
normalize/fill/deduplicate/write pipeline of `save_to_csv`, together with the
accumulation step of `main`.

Strings are modelled as Lean `String` (a wrapper around `List Char`), Python
`str.split` / `str.strip` as character-list recursions, Python dicts as
association lists looked up by first match, pandas data frames as a column
list plus the record rows, and the Selenium-facing effects of
`search_and_scrape` as an environment of `Except`-valued outcomes, one per
driver call, with the unbounded scroll loop driven by explicit fuel
(`none` = still running).
-/

namespace GScrape

/-! ## Python string primitives -/

/-- Python `text.split(sep)` on a single-character separator, at the
character-list level: `"a·b"` becomes `["a", "b"]`, and a text without the
separator becomes the one-element list holding the whole text. -/
def splitOnSep (sep : Char) : List Char → List (List Char)
  | [] => [[]]
  | c :: cs =>
    if c = sep then [] :: splitOnSep sep cs
    else
      match splitOnSep sep cs with
      | [] => [[c]]
      | p :: ps => (c :: p) :: ps

/-- Python `text.strip()`: drop whitespace from both ends. -/
def stripChars (l : List Char) : List Char :=
  ((l.dropWhile Char.isWhitespace).reverse.dropWhile Char.isWhitespace).reverse

/-- String-level `split`. -/
def pySplit (sep : Char) (s : String) : List String :=
  (splitOnSep sep s.data).map String.mk

/-- String-level `strip`. -/
def pyStrip (s : String) : String :=
  String.mk (stripChars s.data)

/-- The middle-dot separator used by `parse_results` for address splitting. -/
def middot : Char := '·'

/-! ## `parse_results` — markup-to-record extraction

`BeautifulSoup(page_source).find_all('div', {'jsaction': ...mouseover:pane...})`
yields the candidate item containers; each container is abstracted to the
texts of the three inner elements `parse_results` looks up. -/

/-- One candidate listing container: the text of `div.qBF1Pd` (name), of
`span.UsdlK` (phone) and of `div.W4Efsd` (address container), each `none`
when the inner element is absent. -/
structure Listing where
  nameTag : Option String
  phoneTag : Option String
  addressContainer : Option String
deriving DecidableEq, Repr

/-- A Python dict of string keys and values, as an association list looked up
by first match (dict keys are unique, so first match is dict lookup). -/
abbrev Record := List (String × String)

/-- Python `dict` lookup (`business_data.get(key)` / `row[key]`). -/
def pyGet (r : Record) (c : String) : Option String :=
  match r with
  | [] => none
  | (k, v) :: rest => if k = c then some v else pyGet rest c

/-- The address extraction of `parse_results` (source lines 141-149): take the
container text, split on `'·'`; if more than one part, the stripped last part;
else the whole text; empty string when the container is absent. -/
def extractAddress (addressContainer : Option String) : String :=
  match addressContainer with
  | none => ""
  | some t =>
    let parts := pySplit middot t
    if parts.length > 1 then pyStrip ((parts.getLast?).getD "")
    else t

/-- The dict built for one listing (source lines 132-154): name defaults to
the sentinel `"N/A"`, phone to `""`, address via `extractAddress`, and the
query context is attached as `district` and `category`. -/
def parseListing (l : Listing) (district keyword : String) : Record :=
  [ ("name", (l.nameTag).getD "N/A")
  , ("phone", (l.phoneTag).getD "")
  , ("address", extractAddress l.addressContainer)
  , ("district", district)
  , ("category", keyword) ]

/-- `parse_results` (source lines 123-163): build each listing's dict and
append it only when `business_data.get('name') != 'N/A'`. -/
def parse_results (listings : List Listing) (district keyword : String) :
    List Record :=
  listings.flatMap (fun l =>
    let bd := parseListing l district keyword
    if pyGet bd "name" ≠ some "N/A" then [bd] else [])

/-! ## The scroll-stabilization loop of `search_and_scrape` -/

/-- `max_scroll_attempts` (source line 97). -/
def maxScrollAttempts : Nat := 10

/-- One iteration of the scroll loop body (source lines 99-111), given the
previous height `last`, the stall counter `att` and the newly measured height
`nh`: on an unchanged height the counter is incremented and the loop breaks
(`Sum.inr ()`) once the counter exceeds `maxScrollAttempts`; on a changed
height the counter resets to zero; otherwise the loop continues with the new
height and counter (`Sum.inl`). -/
def scrollStep (last att nh : Nat) : (Nat × Nat) ⊕ Unit :=
  if nh = last then
    if att + 1 > maxScrollAttempts then Sum.inr ()
    else Sum.inl (nh, att + 1)
  else Sum.inl (nh, 0)

/-- Run the loop body over a finite list of height readings, returning either
the state `(last, att)` the loop is in afterwards or `Sum.inr ()` if it broke. -/
def runSteps : List Nat → Nat → Nat → (Nat × Nat) ⊕ Unit
  | [], last, att => Sum.inl (last, att)
  | nh :: rest, last, att =>
    match scrollStep last att nh with
    | Sum.inr () => Sum.inr ()
    | Sum.inl (l, a) => runSteps rest l a

/-- The `while True` scroll loop, with each iteration's scroll-and-measure
(`execute_script` twice plus the sleep) abstracted as `heights i`, which may
throw. `fuel` bounds how many iterations we observe: `none` means the loop is
still running after `fuel` iterations; `some (Except.error e)` means an
iteration threw `e`; `some (Except.ok ())` means the loop broke normally. -/
def scrollLoop (heights : Nat → Except String Nat) :
    Nat → Nat → Nat → Nat → Option (Except String Unit)
  | 0, _, _, _ => none
  | fuel + 1, i, last, att =>
    match heights i with
    | Except.error e => some (Except.error e)
    | Except.ok nh =>
      match scrollStep last att nh with
      | Sum.inr () => some (Except.ok ())
      | Sum.inl (l, a) => scrollLoop heights fuel (i + 1) l a

/-! ## `search_and_scrape` — control flow and error boundaries -/

/-- The outcomes of the driver-facing calls made during one query: each is the
result the call would produce (`Except.error` = the call raises). `heights i`
is the height measured at scroll iteration `i`; `pageSource` is abstracted to
the listing containers `BeautifulSoup` would find in the page source. -/
structure ScrapeEnv where
  navigate : Except String Unit
  consentClick : Except String Unit
  waitForSearchUrl : Except String Unit
  findResultsFor : Except String Unit
  findFeed : Except String Unit
  findBody : Except String Unit
  initialHeight : Except String Nat
  heights : Nat → Except String Nat
  pageSource : Except String (List Listing)

/-- `handle_consent` (source lines 51-61): the wait-and-click is wrapped in a
bare `except`, so the call always returns; only the log line differs. -/
def handle_consent (env : ScrapeEnv) : List String :=
  match env.consentClick with
  | Except.ok _ => ["Clicked the 'Accept all' cookie consent button."]
  | Except.error _ => ["Cookie consent button not found or not clickable."]

/-- The scrollable-container fallback chain (source lines 81-93): try the
aria-label locator, on failure the feed-role locator, on failure
`find_element(By.TAG_NAME, 'body')`, whose own failure propagates. -/
def locateScrollable (env : ScrapeEnv) : Except String Unit :=
  match env.findResultsFor with
  | Except.ok e => Except.ok e
  | Except.error _ =>
    match env.findFeed with
    | Except.ok e => Except.ok e
    | Except.error _ => env.findBody

/-- The body of the `try` block of `search_and_scrape` (source lines 74-115):
wait for the search URL, locate the scrollable container, measure the initial
height, run the scroll loop, then grab the page source and parse it. The
first raising step yields `some (Except.error e)`; `none` means the scroll
loop is still running after `fuel` iterations. -/
def scrapeTryBlock (env : ScrapeEnv) (district keyword : String) (fuel : Nat) :
    Option (Except String (List Record)) :=
  match env.waitForSearchUrl with
  | Except.error e => some (Except.error e)
  | Except.ok _ =>
    match locateScrollable env with
    | Except.error e => some (Except.error e)
    | Except.ok _ =>
      match env.initialHeight with
      | Except.error e => some (Except.error e)
      | Except.ok h0 =>
        match scrollLoop env.heights fuel 0 h0 0 with
        | none => none
        | some (Except.error e) => some (Except.error e)
        | some (Except.ok _) =>
          match env.pageSource with
          | Except.error e => some (Except.error e)
          | Except.ok listings =>
            some (Except.ok (parse_results listings district keyword))

/-- The query string (source line 66). -/
def queryOf (keyword district : String) : String :=
  keyword ++ " in " ++ district ++ ", Bangladesh"

/-- The `logger.error` line of the `except` block (source line 119), carrying
the query string and the exception's trace. -/
def scrapeErrorLog (query trace : String) : String :=
  "An error occurred during scraping for '" ++ query ++ "':" ++ trace

/-- `search_and_scrape` (source lines 63-121). `driver.get(url)` (line 71) and
`handle_consent` (line 72) run before the `try` block, so a raise from
navigation propagates to the caller (`some (Except.error e)` at top level);
an exception inside the `try` block is caught, logged with the query string,
and the initial `businesses = []` is returned. The result pairs the returned
record list with the log lines written at this level; `none` means the scroll
loop is still running. The `pages` parameter is accepted and unused, as in
the source. -/
def search_and_scrape (env : ScrapeEnv) (keyword district : String)
    (pages : Nat) (fuel : Nat) :
    Option (Except String (List Record × List String)) :=
  match env.navigate with
  | Except.error e => some (Except.error e)
  | Except.ok _ =>
    let consentLogs := handle_consent env
    match scrapeTryBlock env district keyword fuel with
    | none => none
    | some (Except.ok bs) => some (Except.ok (bs, consentLogs))
    | some (Except.error e) =>
      some (Except.ok ([], consentLogs ++ [scrapeErrorLog (queryOf keyword district) e]))

/-! ## `save_to_csv` — pandas normalize / fill / select / deduplicate -/

/-- `expected_columns` (source line 172). -/
def expectedColumns : List String :=
  ["name", "phone", "address", "district", "category"]

/-- Append the keys of one record to an accumulated column list, keeping first
appearances only (how `pd.DataFrame(list_of_dicts)` orders its columns). -/
def insertKeys (acc : List String) (r : Record) : List String :=
  r.foldl (fun a p => if p.1 ∈ a then a else a ++ [p.1]) acc

/-- The columns of `pd.DataFrame(businesses)`: the union of the dicts' keys in
order of first appearance. -/
def dfColumns (rs : List Record) : List String :=
  rs.foldl insertKeys []

/-- A data frame: a column list plus the row dicts; the cell of row `r` at
column `c` is `pyGet r c`, `none` standing for NaN. -/
structure Df where
  columns : List String
  rows : List Record
deriving DecidableEq, Repr

/-- `pd.DataFrame(businesses)`. -/
def pdDataFrame (rs : List Record) : Df :=
  ⟨dfColumns rs, rs⟩

/-- One iteration of the fill loop (source lines 173-175): if `col` is not a
column, add it with every cell `''`. -/
def fillStep (df : Df) (c : String) : Df :=
  if c ∈ df.columns then df
  else ⟨df.columns ++ [c], df.rows.map (fun r => r ++ [(c, "")])⟩

/-- The fill loop `for col in expected_columns: ...` (source lines 173-175). -/
def fillMissing (df : Df) : Df :=
  expectedColumns.foldl fillStep df

/-- The pairs the fill loop appends to every row: one `(c, "")` per column of
`cols` not already among `known`. -/
def fillPad (cols known : List String) : Record :=
  match cols with
  | [] => []
  | c :: cs =>
    if c ∈ known then fillPad cs known
    else (c, "") :: fillPad cs (known ++ [c])

/-- `df = df[expected_columns]` (source line 177): reorder/restrict to `cols`;
pandas raises a KeyError (here `none`) when a requested column is absent. -/
def selectColumns (df : Df) (cols : List String) : Option Df :=
  if ∀ c ∈ cols, c ∈ df.columns then some ⟨cols, df.rows⟩ else none

/-- The deduplication key of `drop_duplicates(subset=['name', 'address'])`:
the `name` and `address` cells (NaN keys, i.e. `none`, compare equal, as in
pandas). -/
def rowKey (r : Record) : Option String × Option String :=
  (pyGet r "name", pyGet r "address")

/-- `drop_duplicates(..., keep='first')` over the rows: keep a row iff its key
was not seen before. -/
def dropDupAux : List Record → List (Option String × Option String) → List Record
  | [], _ => []
  | r :: rest, seen =>
    if rowKey r ∈ seen then dropDupAux rest seen
    else r :: dropDupAux rest (rowKey r :: seen)

/-- `df.drop_duplicates(subset=['name', 'address'], keep='first')` (source
line 178). -/
def dropDuplicates (df : Df) : Df :=
  ⟨df.columns, dropDupAux df.rows []⟩

/-- `save_to_csv` (source lines 165-181): warn and write nothing on an empty
input; otherwise build the frame, fill the missing expected columns with
`''`, select the expected columns, deduplicate by `(name, address)` keeping
the first occurrence, and write the file. The result pairs the log lines with
the written file (`none` = no file written). -/
def save_to_csv (businesses : List Record) (filename : String) :
    List String × Option (String × Df) :=
  if businesses = [] then (["No data to save."], none)
  else
    match selectColumns (fillMissing (pdDataFrame businesses)) expectedColumns with
    | none => ([], none)
    | some df =>
      let u := dropDuplicates df
      ([ "✅ Saved " ++ toString u.rows.length ++ " unique businesses to " ++ filename ],
       some (filename, u))

/-! ## `main` — accumulation and the final save -/

/-- The accumulation of `main` (source lines 199-213): `all_businesses` is the
concatenation, district by district and keyword by keyword, of each query's
results (`extend` of an empty list is a no-op, so the `if businesses:` guard
does not change the accumulated value). -/
def accumulateAll (results : String → String → List Record)
    (districts keywords : List String) : List Record :=
  districts.flatMap (fun d => keywords.flatMap (fun k => results d k))

/-- The final step of `main` (source lines 215-220): save when anything was
accumulated, otherwise only warn. -/
def mainSaveStep (allBusinesses : List Record) (filename : String) :
    List String × Option (String × Df) :=
  if allBusinesses = [] then
    (["Scraping finished, but no businesses were found."], none)
  else save_to_csv allBusinesses filename

/-! ## Concrete instances used to settle the claims -/

/-- A height trace that grows at every measurement. -/
def growingHeights (i : Nat) : Except String Nat := Except.ok (i + 1)

/-- The scroll loop never finishes on this trace, no matter how many
iterations we observe. -/
def scrollLoopDiverges (h0 : Nat) (heights : Nat → Except String Nat) : Prop :=
  ∀ fuel, scrollLoop heights fuel 0 h0 0 = none

/-- An environment whose navigation call (`driver.get`) raises and whose
remaining calls would all succeed. -/
def navFailEnv : ScrapeEnv :=
  ⟨Except.error "network unreachable", Except.ok (), Except.ok (), Except.ok (),
   Except.ok (), Except.ok (), Except.ok 0, fun _ => Except.ok 0, Except.ok []⟩

/-- An environment whose navigation succeeds but whose wait for the results
view times out inside the `try` block. -/
def waitFailEnv : ScrapeEnv :=
  ⟨Except.ok (), Except.error "no consent prompt", Except.error "timeout",
   Except.ok (), Except.ok (), Except.ok (), Except.ok 0,
   fun _ => Except.ok 0, Except.ok []⟩

/-- Sample records for the persistence claims. -/
def recA : Record :=
  [("name", "A"), ("phone", "1"), ("address", "X"), ("district", "D"), ("category", "k")]

/-- A record with the same `(name, address)` pair as `recA`. -/
def recA2 : Record :=
  [("name", "A"), ("phone", "2"), ("address", "X"), ("district", "D"), ("category", "k")]

/-- A record with a fresh `(name, address)` pair. -/
def recB : Record :=
  [("name", "B"), ("phone", "3"), ("address", "Y"), ("district", "D"), ("category", "k")]

/-- A record missing most expected fields and carrying an extra one. -/
def recOdd : Record := [("phone", "9"), ("extra", "z")]

/-! ## Lemmas about the Python string primitives -/

theorem splitOnSep_ne_nil (sep : Char) (l : List Char) : splitOnSep sep l ≠ [] := by
  induction l with
  | nil => simp [splitOnSep]
  | cons c cs ih =>
    by_cases h : c = sep
    · simp [splitOnSep, h]
    · simp only [splitOnSep, if_neg h]
      cases hs : splitOnSep sep cs <;> simp

theorem splitOnSep_of_not_mem {sep : Char} {l : List Char} (h : sep ∉ l) :
    splitOnSep sep l = [l] := by
  induction l with
  | nil => simp [splitOnSep]
  | cons c cs ih =>
    have hc : ¬ c = sep := fun hcs => h (hcs ▸ List.mem_cons_self c cs)
    have htail : sep ∉ cs := fun hm => h (List.mem_cons_of_mem c hm)
    simp only [splitOnSep, if_neg hc, ih htail]

theorem one_lt_length_splitOnSep {sep : Char} {l : List Char} (h : sep ∈ l) :
    1 < (splitOnSep sep l).length := by
  induction l with
  | nil => simp at h
  | cons c cs ih =>
    by_cases hc : c = sep
    · simp only [splitOnSep, if_pos hc, List.length_cons]
      have := splitOnSep_ne_nil sep cs
      have hpos : 0 < (splitOnSep sep cs).length := List.length_pos.mpr this
      omega
    · have hm : sep ∈ cs := by
        rcases List.mem_cons.mp h with h1 | h2
        · exact absurd h1.symm hc
        · exact h2
      simp only [splitOnSep, if_neg hc]
      cases hs : splitOnSep sep cs with
      | nil => exact absurd hs (splitOnSep_ne_nil sep cs)
      | cons p ps =>
        have := ih hm
        rw [hs] at this
        simpa using this

/-! ## Claim C5 — address extraction -/

/-- C5: if the address container's text contains the middle-dot separator,
the extracted address is the last separator-delimited segment (stripped, as
the claim's own example `"123 Main St · Dhaka" ↦ "Dhaka"` shows); if it
contains no separator, the extracted address is the full text unchanged; if
the container is absent, the address is the empty string. -/
theorem extract_address_spec :
    (∀ t : String, middot ∈ t.data →
      extractAddress (some t) = pyStrip (((pySplit middot t).getLast?).getD "")) ∧
    (∀ t : String, middot ∉ t.data → extractAddress (some t) = t) ∧
    extractAddress (some "123 Main St · Dhaka") = "Dhaka" ∧
    extractAddress none = "" := by
  refine ⟨fun t h => ?_, fun t h => ?_, by decide, rfl⟩
  · have hlen : 1 < (pySplit middot t).length := by
      simpa [pySplit] using one_lt_length_splitOnSep h
    simp [extractAddress, if_pos hlen]
  · have hsplit : splitOnSep middot t.data = [t.data] := splitOnSep_of_not_mem h
    have hparts : pySplit middot t = [t] := by
      simp [pySplit, hsplit]
    simp [extractAddress, hparts]

/-- Witness for C5 at concrete inputs. -/
theorem extract_address_spec_witness :
    extractAddress (some "a ·b· c") = pyStrip (((pySplit middot "a ·b· c").getLast?).getD "") ∧
    extractAddress (some "plain text") = "plain text" :=
  ⟨extract_address_spec.1 "a ·b· c" (by decide),
   extract_address_spec.2.1 "plain text" (by decide)⟩

/-! ## Lemmas about the scroll loop -/

theorem scrollLoop_growing_none :
    ∀ fuel i, scrollLoop growingHeights fuel i i 0 = none := by
  intro fuel
  induction fuel with
  | zero => intro i; rfl
  | succ n ih =>
    intro i
    have hstep : scrollStep i 0 (i + 1) = Sum.inl (i + 1, 0) := by
      simp [scrollStep]
    simp only [scrollLoop, growingHeights, hstep]
    exact ih (i + 1)

theorem scrollStep_const_continue {c att : Nat} (h : att < 10) :
    scrollStep c att c = Sum.inl (c, att + 1) := by
  unfold scrollStep maxScrollAttempts
  rw [if_pos rfl, if_neg (by omega)]

theorem scrollLoop_const_terminates (c : Nat) :
    ∀ fuel att i, att ≤ 10 → 11 - att ≤ fuel →
      scrollLoop (fun _ => Except.ok c) fuel i c att = some (Except.ok ()) := by
  intro fuel
  induction fuel with
  | zero =>
    intro att i h1 h2
    omega
  | succ n ih =>
    intro att i h1 h2
    by_cases hatt : att = 10
    · have hstep : scrollStep c att c = Sum.inr () := by
        have hM : maxScrollAttempts = 10 := rfl
        simp only [scrollStep, if_pos rfl, hM, hatt]
        simp
      simp only [scrollLoop, hstep]
    · have hstep : scrollStep c att c = Sum.inl (c, att + 1) :=
        scrollStep_const_continue (by omega)
      simp only [scrollLoop, hstep]
      exact ih (att + 1) (i + 1) (by omega) (by omega)

theorem scrollLoop_const_running (c : Nat) :
    ∀ fuel att i, att + fuel ≤ 10 →
      scrollLoop (fun _ => Except.ok c) fuel i c att = none := by
  intro fuel
  induction fuel with
  | zero => intro att i _; rfl
  | succ n ih =>
    intro att i h
    have hstep : scrollStep c att c = Sum.inl (c, att + 1) :=
      scrollStep_const_continue (by omega)
    simp only [scrollLoop, hstep]
    exact ih (att + 1) (i + 1) (by omega)

theorem runSteps_stalls_then_growth {last d : Nat} (hne : d ≠ last) :
    ∀ k att, att + k ≤ 10 →
      runSteps (List.replicate k last ++ [d]) last att = Sum.inl (d, 0) := by
  intro k
  induction k with
  | zero =>
    intro att _
    simp [runSteps, scrollStep, if_neg hne]
  | succ n ih =>
    intro att h
    have hstep : scrollStep last att last = Sum.inl (last, att + 1) :=
      scrollStep_const_continue (by omega)
    rw [List.replicate_succ]
    simp only [List.cons_append, runSteps, hstep]
    exact ih (att + 1) (by omega)

/-! ## Claim C2 — scroll-loop termination -/

/-- C2 counterexample: the claim quantifies over every height-measurement
sequence, but on a trace whose height grows at every measurement the loop
never exits, however many iterations we observe — the stall threshold bounds
only consecutive no-growth readings, not the total iteration count. -/
theorem scroll_loop_unbounded_on_growing_height :
    scrollLoopDiverges 0 growingHeights :=
  fun fuel => scrollLoop_growing_none fuel 0

/-- C2 (amended): when the measured height never changes from the first
measurement, the scroll loop terminates: the stall counter exceeds the fixed
threshold `max_scroll_attempts = 10` on the 11th consecutive unchanged
reading and the loop exits — it is still running after 10 iterations and has
exited after 11. -/
theorem scroll_loop_terminates_on_constant_height :
    (∀ c fuel : Nat, maxScrollAttempts + 1 ≤ fuel →
      scrollLoop (fun _ => Except.ok c) fuel 0 c 0 = some (Except.ok ())) ∧
    (∀ c : Nat, scrollLoop (fun _ => Except.ok c) maxScrollAttempts 0 c 0 = none) := by
  have hM : maxScrollAttempts = 10 := rfl
  constructor
  · intro c fuel hf
    rw [hM] at hf
    exact scrollLoop_const_terminates c fuel 0 0 (by omega) (by omega)
  · intro c
    rw [hM]
    exact scrollLoop_const_running c 10 0 0 (by omega)

/-- Witness for C2's amended theorem at height 7 and fuel 11. -/
theorem scroll_loop_terminates_on_constant_height_witness :
    scrollLoop (fun _ => Except.ok 7) 11 0 7 0 = some (Except.ok ()) :=
  scroll_loop_terminates_on_constant_height.1 7 11 (by decide)

/-! ## Claim C3 — stall-counter reset -/

/-- C3: the loop body resets the stall counter to zero whenever the newly
measured height differs from the previous one, and a run of up to
`max_scroll_attempts - 1` consecutive no-growth readings followed by a height
change leaves the loop running with the counter back at zero. -/
theorem scroll_stall_counter_resets :
    (∀ last att nh : Nat, nh ≠ last → scrollStep last att nh = Sum.inl (nh, 0)) ∧
    (∀ last d k : Nat, k ≤ maxScrollAttempts - 1 → d ≠ last →
      runSteps (List.replicate k last ++ [d]) last 0 = Sum.inl (d, 0)) := by
  constructor
  · intro last att nh h
    simp [scrollStep, if_neg h]
  · intro last d k hk hne
    have hM : maxScrollAttempts = 10 := rfl
    rw [hM] at hk
    exact runSteps_stalls_then_growth hne k 0 (by omega)

/-- Witness for C3: a changed height resets the counter, and 9 stalls
followed by growth leave the loop running with the counter at zero. -/
theorem scroll_stall_counter_resets_witness :
    scrollStep 5 3 7 = Sum.inl (7, 0) ∧
    runSteps (List.replicate 9 5 ++ [6]) 5 0 = Sum.inl (6, 0) :=
  ⟨scroll_stall_counter_resets.1 5 3 7 (by decide),
   scroll_stall_counter_resets.2 5 6 9 (by decide) (by decide)⟩

/-! ## Claim C6 — sentinel filtering of nameless items -/

/-- C6: a candidate item container lacking the name element produces no
output record — its name defaults to the sentinel `"N/A"`, such a record is
not appended, and dropping it splits `parse_results` around the item. -/
theorem missing_name_yields_no_record :
    ∀ (l : Listing) (district keyword : String), l.nameTag = none →
      pyGet (parseListing l district keyword) "name" = some "N/A" ∧
      parse_results [l] district keyword = [] ∧
      ∀ pre post : List Listing,
        parse_results (pre ++ l :: post) district keyword =
          parse_results pre district keyword ++ parse_results post district keyword := by
  intro l district keyword h
  have hname : pyGet (parseListing l district keyword) "name" = some "N/A" := by
    simp [parseListing, pyGet, h]
  refine ⟨hname, ?_, ?_⟩
  · simp [parse_results, hname]
  · intro pre post
    simp [parse_results, hname, List.flatMap_append]

/-- Witness for C6: a nameless listing among named ones leaves no trace. -/
theorem missing_name_yields_no_record_witness :
    parse_results [Listing.mk none (some "017") (some "a · b")] "Dhaka" "bike" = [] :=
  (missing_name_yields_no_record
    (Listing.mk none (some "017") (some "a · b")) "Dhaka" "bike" rfl).2.1

/-! ## Claim C9 — sentinel collision for a literal "N/A" name -/

/-- C9: an item whose name element exists with text exactly `"N/A"` is
discarded, and its parsed record is identical to that of an item with no name
element at all — the two cases are indistinguishable at the interface. -/
theorem sentinel_name_collision :
    ∀ (phoneTag addressContainer : Option String) (district keyword : String),
      parse_results [Listing.mk (some "N/A") phoneTag addressContainer] district keyword = [] ∧
      parseListing (Listing.mk (some "N/A") phoneTag addressContainer) district keyword =
        parseListing (Listing.mk none phoneTag addressContainer) district keyword := by
  intro phoneTag addressContainer district keyword
  constructor
  · simp [parse_results, parseListing, pyGet]
  · rfl

/-! ## Claim C1 — error boundaries of `search_and_scrape` -/

/-- C1 counterexample: navigation (`driver.get`, source line 71) runs before
the `try` block, so an exception raised there propagates to
`search_and_scrape`'s caller instead of being caught — the operation does
raise, contradicting the claim. -/
theorem search_and_scrape_navigation_raises :
    search_and_scrape navFailEnv "bike repair" "Dhaka" 5 11 =
      some (Except.error "network unreachable") := rfl

/-- C1 (amended): once navigation has succeeded, `search_and_scrape` never
raises to its caller — any exception during waiting, container location,
scrolling or parsing is caught at the query boundary, logged with the query
string, and the operation returns the empty record list; only an exception
during the initial navigation (which runs before the `try` block) propagates. -/
theorem search_and_scrape_error_boundary :
    ∀ (env : ScrapeEnv) (keyword district : String) (pages fuel : Nat),
      env.navigate = Except.ok () →
      (∀ e, search_and_scrape env keyword district pages fuel ≠ some (Except.error e)) ∧
      (∀ e, scrapeTryBlock env district keyword fuel = some (Except.error e) →
        search_and_scrape env keyword district pages fuel =
          some (Except.ok
            ([], handle_consent env ++ [scrapeErrorLog (queryOf keyword district) e]))) := by
  intro env keyword district pages fuel hnav
  constructor
  · intro e
    simp only [search_and_scrape, hnav]
    cases htb : scrapeTryBlock env district keyword fuel with
    | none => simp
    | some r =>
      cases r with
      | ok bs => simp
      | error e2 => simp
  · intro e htb
    simp only [search_and_scrape, hnav, htb]

/-- Witness for C1's amended theorem: with navigation fine and the wait for
the results view timing out, the operation returns `[]` and logs the query. -/
theorem search_and_scrape_error_boundary_witness :
    search_and_scrape waitFailEnv "bike" "Dhaka" 5 11 =
      some (Except.ok
        ([], handle_consent waitFailEnv ++ [scrapeErrorLog (queryOf "bike" "Dhaka") "timeout"])) :=
  (search_and_scrape_error_boundary waitFailEnv "bike" "Dhaka" 5 11 rfl).2 "timeout" rfl

/-! ## Lemmas about dict lookup and the data-frame pipeline -/

theorem pyGet_append (a b : Record) (c : String) :
    pyGet (a ++ b) c =
      (match pyGet a c with | some v => some v | none => pyGet b c) := by
  induction a with
  | nil => simp [pyGet]
  | cons p rest ih =>
    cases p with
    | mk k v =>
      by_cases h : k = c
      · simp [pyGet, h]
      · simp [pyGet, h, ih]

theorem mem_keys_of_pyGet_some {r : Record} {c : String} {v : String}
    (h : pyGet r c = some v) : c ∈ r.map Prod.fst := by
  induction r with
  | nil => simp [pyGet] at h
  | cons p rest ih =>
    cases p with
    | mk k w =>
      by_cases hk : k = c
      · simp [hk]
      · rw [pyGet, if_neg hk] at h
        exact List.mem_cons_of_mem _ (ih h)

theorem pyGet_eq_none {r : Record} {c : String} (h : c ∉ r.map Prod.fst) :
    pyGet r c = none := by
  cases hg : pyGet r c with
  | none => rfl
  | some v => exact absurd (mem_keys_of_pyGet_some hg) h

theorem subset_insertKeys (r : Record) (acc : List String) :
    acc ⊆ insertKeys acc r := by
  induction r generalizing acc with
  | nil => exact fun _ h => h
  | cons p rest ih =>
    intro x hx
    simp only [insertKeys, List.foldl_cons]
    by_cases hp : p.1 ∈ acc
    · rw [if_pos hp]
      exact ih acc hx
    · rw [if_neg hp]
      exact ih (acc ++ [p.1]) (List.mem_append_left _ hx)

theorem mem_insertKeys_of_mem_keys {r : Record} {c : String} (acc : List String)
    (h : c ∈ r.map Prod.fst) : c ∈ insertKeys acc r := by
  induction r generalizing acc with
  | nil => simp at h
  | cons p rest ih =>
    simp only [insertKeys, List.foldl_cons]
    rw [List.map_cons] at h
    rcases List.mem_cons.mp h with h1 | h2
    · have hmem : c ∈ (if p.1 ∈ acc then acc else acc ++ [p.1]) := by
        by_cases hp : p.1 ∈ acc
        · rw [if_pos hp]; exact h1 ▸ hp
        · rw [if_neg hp]; exact List.mem_append_right _ (h1 ▸ List.mem_singleton_self _)
      exact subset_insertKeys rest _ hmem
    · by_cases hp : p.1 ∈ acc
      · rw [if_pos hp]; exact ih _ h2
      · rw [if_neg hp]; exact ih _ h2

theorem mem_of_mem_insertKeys {r : Record} {c : String} {acc : List String}
    (h : c ∈ insertKeys acc r) : c ∈ acc ∨ c ∈ r.map Prod.fst := by
  induction r generalizing acc with
  | nil => exact Or.inl h
  | cons p rest ih =>
    simp only [insertKeys, List.foldl_cons] at h
    rcases ih h with h1 | h2
    · by_cases hp : p.1 ∈ acc
      · rw [if_pos hp] at h1; exact Or.inl h1
      · rw [if_neg hp] at h1
        rcases List.mem_append.mp h1 with ha | hb
        · exact Or.inl ha
        · exact Or.inr (by simp [List.mem_singleton.mp hb])
    · exact Or.inr (List.mem_cons_of_mem _ h2)

theorem mem_foldl_insertKeys_of_mem_acc {c : String} :
    ∀ (rs : List Record) (acc : List String), c ∈ acc → c ∈ rs.foldl insertKeys acc := by
  intro rs
  induction rs with
  | nil => exact fun acc h => h
  | cons r rest ih =>
    intro acc h
    simp only [List.foldl_cons]
    exact ih _ (subset_insertKeys r acc h)

theorem mem_dfColumns_of_mem_keys {rs : List Record} {r : Record} {c : String}
    (hr : r ∈ rs) (hc : c ∈ r.map Prod.fst) : c ∈ dfColumns rs := by
  suffices h : ∀ (l : List Record) (acc : List String), r ∈ l → c ∈ l.foldl insertKeys acc by
    exact h rs [] hr
  intro l
  induction l with
  | nil => intro acc h; simp at h
  | cons r0 rest ih =>
    intro acc h
    simp only [List.foldl_cons]
    rcases List.mem_cons.mp h with rfl | hm
    · exact mem_foldl_insertKeys_of_mem_acc rest _ (mem_insertKeys_of_mem_keys acc hc)
    · exact ih _ hm

theorem mem_keys_of_mem_dfColumns {rs : List Record} {c : String}
    (h : c ∈ dfColumns rs) : ∃ r ∈ rs, c ∈ r.map Prod.fst := by
  suffices hgen : ∀ (l : List Record) (acc : List String),
      c ∈ l.foldl insertKeys acc → c ∈ acc ∨ ∃ r ∈ l, c ∈ r.map Prod.fst by
    rcases hgen rs [] h with h1 | h2
    · simp at h1
    · exact h2
  intro l
  induction l with
  | nil => exact fun acc h => Or.inl h
  | cons r0 rest ih =>
    intro acc h
    simp only [List.foldl_cons] at h
    rcases ih _ h with h1 | h2
    · rcases mem_of_mem_insertKeys h1 with ha | hb
      · exact Or.inl ha
      · exact Or.inr ⟨r0, List.mem_cons_self _ _, hb⟩
    · rcases h2 with ⟨r1, hr1, hk⟩
      exact Or.inr ⟨r1, List.mem_cons_of_mem _ hr1, hk⟩

theorem foldl_fillStep_eq :
    ∀ (cols : List String) (df : Df),
      List.foldl fillStep df cols =
        Df.mk (df.columns ++ (fillPad cols df.columns).map Prod.fst)
              (df.rows.map (fun r => r ++ fillPad cols df.columns)) := by
  intro cols
  induction cols with
  | nil =>
    intro df
    simp [fillPad]
  | cons c cs ih =>
    intro df
    by_cases h : c ∈ df.columns
    · simp only [List.foldl_cons, fillStep, if_pos h, fillPad, ih]
    · simp only [List.foldl_cons, fillStep, if_neg h]
      rw [ih]
      simp only [fillPad, if_neg h, List.map_cons, List.map_map]
      have hfun :
          ((fun r : Record => r ++ fillPad cs (df.columns ++ [c])) ∘
            (fun r : Record => r ++ [(c, "")])) =
          (fun r : Record => r ++ ((c, "") :: fillPad cs (df.columns ++ [c]))) := by
        funext r
        simp
      rw [hfun]
      simp [List.append_assoc]

theorem mem_filled_columns :
    ∀ (cols known : List String) (c : String), c ∈ cols ∨ c ∈ known →
      c ∈ known ++ (fillPad cols known).map Prod.fst := by
  intro cols
  induction cols with
  | nil =>
    intro known c h
    rcases h with h | h
    · simp at h
    · simp [fillPad, h]
  | cons c0 cs ih =>
    intro known c h
    by_cases h0 : c0 ∈ known
    · rw [fillPad, if_pos h0]
      rcases h with h | h
      · rcases List.mem_cons.mp h with rfl | hm
        · exact ih known c (Or.inr h0)
        · exact ih known c (Or.inl hm)
      · exact ih known c (Or.inr h)
    · rw [fillPad, if_neg h0]
      have hgoal : c ∈ (known ++ [c0]) ++ (fillPad cs (known ++ [c0])).map Prod.fst := by
        apply ih
        rcases h with h | h
        · rcases List.mem_cons.mp h with rfl | hm
          · exact Or.inr (List.mem_append_right _ (List.mem_singleton_self _))
          · exact Or.inl hm
        · exact Or.inr (List.mem_append_left _ h)
      simpa [List.append_assoc] using hgoal

theorem pyGet_fillPad :
    ∀ (cols known : List String) (c : String), c ∈ cols → c ∉ known →
      pyGet (fillPad cols known) c = some "" := by
  intro cols
  induction cols with
  | nil => intro known c h _; simp at h
  | cons c0 cs ih =>
    intro known c hc hnk
    by_cases h0 : c0 ∈ known
    · rw [fillPad, if_pos h0]
      have hcs : c ∈ cs := by
        rcases List.mem_cons.mp hc with rfl | hm
        · exact absurd h0 hnk
        · exact hm
      exact ih known c hcs hnk
    · rw [fillPad, if_neg h0]
      by_cases hcc : c0 = c
      · rw [pyGet, if_pos hcc]
      · rw [pyGet, if_neg hcc]
        have hcs : c ∈ cs := by
          rcases List.mem_cons.mp hc with rfl | hm
          · exact absurd rfl hcc
          · exact hm
        refine ih (known ++ [c0]) c hcs ?_
        intro hmem
        rcases List.mem_append.mp hmem with ha | hb
        · exact hnk ha
        · exact hcc (List.mem_singleton.mp hb).symm

theorem dropDupAux_key_not_seen :
    ∀ (l : List Record) (seen : List (Option String × Option String)) (r : Record),
      r ∈ dropDupAux l seen → rowKey r ∉ seen := by
  intro l
  induction l with
  | nil => intro seen r h; simp [dropDupAux] at h
  | cons r0 rest ih =>
    intro seen r h
    simp only [dropDupAux] at h
    by_cases h0 : rowKey r0 ∈ seen
    · rw [if_pos h0] at h
      exact ih seen r h
    · rw [if_neg h0] at h
      rcases List.mem_cons.mp h with rfl | hm
      · exact h0
      · have hni := ih _ r hm
        intro hc
        exact hni (List.mem_cons_of_mem _ hc)

theorem dropDupAux_pairwise :
    ∀ (l : List Record) (seen : List (Option String × Option String)),
      (dropDupAux l seen).Pairwise (fun a b => rowKey a ≠ rowKey b) := by
  intro l
  induction l with
  | nil => intro seen; simp [dropDupAux]
  | cons r0 rest ih =>
    intro seen
    simp only [dropDupAux]
    by_cases h0 : rowKey r0 ∈ seen
    · rw [if_pos h0]; exact ih seen
    · rw [if_neg h0]
      refine List.Pairwise.cons ?_ (ih _)
      intro b hb hc
      exact dropDupAux_key_not_seen rest _ b hb (hc ▸ List.mem_cons_self _ _)

theorem dropDupAux_find_first :
    ∀ (l : List Record) (seen : List (Option String × Option String)) (r : Record),
      r ∈ dropDupAux l seen →
      l.find? (fun x => decide (rowKey x = rowKey r)) = some r := by
  intro l
  induction l with
  | nil => intro seen r h; simp [dropDupAux] at h
  | cons r0 rest ih =>
    intro seen r h
    simp only [dropDupAux] at h
    by_cases h0 : rowKey r0 ∈ seen
    · rw [if_pos h0] at h
      have hne : ¬ rowKey r0 = rowKey r := by
        intro hc
        exact dropDupAux_key_not_seen rest seen r h (hc ▸ h0)
      rw [List.find?_cons_of_neg _ (by simpa using hne)]
      exact ih seen r h
    · rw [if_neg h0] at h
      rcases List.mem_cons.mp h with rfl | hm
      · rw [List.find?_cons_of_pos _ (by simp)]
      · have hne : ¬ rowKey r0 = rowKey r := by
          intro hc
          exact dropDupAux_key_not_seen rest _ r hm (hc ▸ List.mem_cons_self _ _)
        rw [List.find?_cons_of_neg _ (by simpa using hne)]
        exact ih _ r hm

theorem dropDupAux_sublist :
    ∀ (l : List Record) (seen : List (Option String × Option String)),
      List.Sublist (dropDupAux l seen) l := by
  intro l
  induction l with
  | nil => intro seen; simp [dropDupAux]
  | cons r0 rest ih =>
    intro seen
    simp only [dropDupAux]
    by_cases h0 : rowKey r0 ∈ seen
    · rw [if_pos h0]
      exact List.Sublist.cons r0 (ih seen)
    · rw [if_neg h0]
      exact List.Sublist.cons₂ r0 (ih _)

theorem selectColumns_fillMissing (rs : List Record) :
    selectColumns (fillMissing (pdDataFrame rs)) expectedColumns =
      some (Df.mk expectedColumns (fillMissing (pdDataFrame rs)).rows) := by
  unfold selectColumns
  rw [if_pos]
  intro c hc
  rw [fillMissing, foldl_fillStep_eq expectedColumns (pdDataFrame rs)]
  exact mem_filled_columns expectedColumns (pdDataFrame rs).columns c (Or.inl hc)

theorem fillMissing_rows_eq (rs : List Record) :
    (fillMissing (pdDataFrame rs)).rows =
      rs.map (fun r => r ++ fillPad expectedColumns (dfColumns rs)) := by
  rw [fillMissing, foldl_fillStep_eq expectedColumns (pdDataFrame rs)]
  rfl

theorem save_to_csv_eq (rs : List Record) (filename : String) (h : rs ≠ []) :
    save_to_csv rs filename =
      ([ "✅ Saved " ++ toString (dropDupAux (fillMissing (pdDataFrame rs)).rows []).length
          ++ " unique businesses to " ++ filename ],
       some (filename, Df.mk expectedColumns (dropDupAux (fillMissing (pdDataFrame rs)).rows []))) := by
  unfold save_to_csv
  rw [if_neg h, selectColumns_fillMissing]
  rfl

/-! ## Claim C4 — deduplication keeps the first record per `(name, address)` -/

/-- C4: the persisted rows contain no two rows with the same
`(name, address)` pair, and every retained row is the first row carrying its
pair in input order (the frame's rows are the input records in order, each
extended by the filled-in missing columns). -/
theorem save_to_csv_dedup_first_occurrence :
    ∀ (businesses : List Record) (filename fname : String) (df : Df),
      (save_to_csv businesses filename).2 = some (fname, df) →
      df.rows.Pairwise (fun a b => rowKey a ≠ rowKey b) ∧
      (∀ r ∈ df.rows,
        (fillMissing (pdDataFrame businesses)).rows.find?
          (fun x => decide (rowKey x = rowKey r)) = some r) ∧
      (fillMissing (pdDataFrame businesses)).rows =
        businesses.map (fun r => r ++ fillPad expectedColumns (dfColumns businesses)) := by
  intro rs filename fname df h
  by_cases hrs : rs = []
  · subst hrs
    simp [save_to_csv] at h
  · rw [save_to_csv_eq rs filename hrs] at h
    simp only [Option.some.injEq, Prod.mk.injEq] at h
    obtain ⟨-, hdf⟩ := h
    subst hdf
    refine ⟨dropDupAux_pairwise _ _, ?_, fillMissing_rows_eq rs⟩
    intro r hr
    exact dropDupAux_find_first _ _ r hr

/-- Witness for C4: two records sharing a `(name, address)` pair collapse to
the first of them. -/
theorem save_to_csv_dedup_first_occurrence_witness :
    (Df.mk expectedColumns [recA, recB]).rows.Pairwise (fun a b => rowKey a ≠ rowKey b) ∧
    (∀ r ∈ (Df.mk expectedColumns [recA, recB]).rows,
      (fillMissing (pdDataFrame [recA, recA2, recB])).rows.find?
        (fun x => decide (rowKey x = rowKey r)) = some r) ∧
    (fillMissing (pdDataFrame [recA, recA2, recB])).rows =
      [recA, recA2, recB].map
        (fun r => r ++ fillPad expectedColumns (dfColumns [recA, recA2, recB])) :=
  save_to_csv_dedup_first_occurrence [recA, recA2, recB] "out.csv" "out.csv"
    (Df.mk expectedColumns [recA, recB]) rfl

/-! ## Claim C7 — fixed column order and empty-string fill -/

/-- C7: for a nonempty input, the written frame's columns are exactly
`[name, phone, address, district, category]` in that order, and any expected
field absent from every input record is filled with the empty string in every
row. -/
theorem save_to_csv_column_order_and_fill :
    ∀ (businesses : List Record) (filename : String), businesses ≠ [] →
      ∃ df : Df, (save_to_csv businesses filename).2 = some (filename, df) ∧
        df.columns = expectedColumns ∧
        ∀ c ∈ expectedColumns, (∀ r ∈ businesses, c ∉ r.map Prod.fst) →
          ∀ r ∈ df.rows, pyGet r c = some "" := by
  intro rs filename hrs
  refine ⟨Df.mk expectedColumns (dropDupAux (fillMissing (pdDataFrame rs)).rows []),
    by rw [save_to_csv_eq rs filename hrs], rfl, ?_⟩
  intro c hc habs r hr
  have hrmem : r ∈ (fillMissing (pdDataFrame rs)).rows :=
    (dropDupAux_sublist _ _).subset hr
  rw [fillMissing_rows_eq rs] at hrmem
  obtain ⟨r0, hr0, rfl⟩ := List.mem_map.mp hrmem
  have h0 : pyGet r0 c = none := pyGet_eq_none (habs r0 hr0)
  rw [pyGet_append, h0]
  have hdfc : c ∉ dfColumns rs := by
    intro hmem
    obtain ⟨r1, hr1, hk⟩ := mem_keys_of_mem_dfColumns hmem
    exact habs r1 hr1 hk
  exact pyGet_fillPad expectedColumns (dfColumns rs) c hc hdfc

/-- Witness for C7: a record with only `phone` and an extra key still yields
the five expected columns, with `name` filled by the empty string. -/
theorem save_to_csv_column_order_and_fill_witness :
    ∃ df : Df, (save_to_csv [recOdd] "out.csv").2 = some ("out.csv", df) ∧
      df.columns = expectedColumns ∧
      ∀ c ∈ expectedColumns, (∀ r ∈ [recOdd], c ∉ r.map Prod.fst) →
        ∀ r ∈ df.rows, pyGet r c = some "" :=
  save_to_csv_column_order_and_fill [recOdd] "out.csv" (by simp)

/-! ## Claim C10 — deduplication never reorders surviving rows -/

/-- C10: the persisted rows are a sublist of the frame's rows, which are the
input records in input order (each extended by the filled-in missing
columns) — so surviving rows appear in the same relative order as the first
occurrences of their `(name, address)` pairs in the input. -/
theorem save_to_csv_preserves_input_order :
    ∀ (businesses : List Record) (filename fname : String) (df : Df),
      (save_to_csv businesses filename).2 = some (fname, df) →
      List.Sublist df.rows (fillMissing (pdDataFrame businesses)).rows ∧
      (fillMissing (pdDataFrame businesses)).rows =
        businesses.map (fun r => r ++ fillPad expectedColumns (dfColumns businesses)) := by
  intro rs filename fname df h
  by_cases hrs : rs = []
  · subst hrs
    simp [save_to_csv] at h
  · rw [save_to_csv_eq rs filename hrs] at h
    simp only [Option.some.injEq, Prod.mk.injEq] at h
    obtain ⟨-, hdf⟩ := h
    subst hdf
    exact ⟨dropDupAux_sublist _ _, fillMissing_rows_eq rs⟩

/-- Witness for C10: with a duplicate in the middle, the survivors keep their
relative input order. -/
theorem save_to_csv_preserves_input_order_witness :
    List.Sublist (Df.mk expectedColumns [recB, recA]).rows
      (fillMissing (pdDataFrame [recB, recA, recA2])).rows ∧
    (fillMissing (pdDataFrame [recB, recA, recA2])).rows =
      [recB, recA, recA2].map
        (fun r => r ++ fillPad expectedColumns (dfColumns [recB, recA, recA2])) :=
  save_to_csv_preserves_input_order [recB, recA, recA2] "out.csv" "out.csv"
    (Df.mk expectedColumns [recB, recA]) rfl

/-! ## Claim C8 — empty accumulation writes no file -/

/-- C8: an empty record sequence makes `save_to_csv` warn and write no file,
and when every query of the run returns zero items the top-level loop's
accumulation is empty, so `main` warns and skips file output entirely. -/
theorem empty_accumulation_no_file :
    (∀ filename, save_to_csv [] filename = (["No data to save."], none)) ∧
    (∀ (results : String → String → List Record) (districts keywords : List String)
        (filename : String), (∀ d k, results d k = []) →
      mainSaveStep (accumulateAll results districts keywords) filename =
        (["Scraping finished, but no businesses were found."], none)) := by
  constructor
  · intro filename
    rfl
  · intro results districts keywords filename h
    have hacc : accumulateAll results districts keywords = [] := by
      simp [accumulateAll, h]
    rw [hacc]
    rfl

/-- Witness for C8: a run whose every query returns nothing writes no file. -/
theorem empty_accumulation_no_file_witness :
    mainSaveStep
      (accumulateAll (fun _ _ => ([] : List Record)) ["Dhaka"] ["motorcycle", "bike repair"])
      "out.csv" =
    (["Scraping finished, but no businesses were found."], none) :=
  empty_accumulation_no_file.2 (fun _ _ => []) ["Dhaka"] ["motorcycle", "bike repair"]
    "out.csv" (fun _ _ => rfl)

end GScrape
